import Mathlib

/-!
Verification development for the cloud backup client SDK
(cloudbackup/client/rse.py, cloudbackup/client/agents.py).

The Python source is shallowly embedded: JSON records whose keys may be
absent become structures with Option fields, Python dict lookups that can
raise KeyError or LookupError become Except / Option values, stateful
objects become explicit state records, and the wall clock plus network
become explicit oracle traces consumed by the loops that poll them.
-/

/- ===================== RSE channel (rse.py) ===================== -/

/-- The value of the nested JSON object stored under the key data of an RSE
event.  Keys may be absent in a malformed message, hence Option fields.
Field names follow the JSON keys read by rse.py: data.Event (the event
type string) and data.MachineAgentId. -/
structure EventData where
  event : Option String
  machineAgentId : Option Nat
deriving Repr, DecidableEq

/-- One entry of an RSE message as read by Rse.MonitorForHeartBeat:
the data object (key data) and the age in seconds (key age).  Any key may
be absent in a malformed message. -/
structure Event where
  data : Option EventData
  age : Option Int
deriving Repr, DecidableEq

/-- The polled response processed by Rse.MonitorForHeartBeat: either the
envelope shape, a JSON object containing the key events (rse.py line 168
takes this branch), or a bare sequence of events (the else branch at
line 181).  A non-200 Query returns the empty object, which the membership
test sends to the bare branch with no entries to iterate. -/
inductive RseMsg where
  | envelope (events : List Event)
  | bare (events : List Event)
deriving Repr, DecidableEq

/-- The per-event body of the scan loops in Rse.MonitorForHeartBeat
(rse.py lines 177-179 and 188-190).  A missing key raises LookupError
(error here); the Python conjunction short-circuits, so the age key is
only read when the event type is Heartbeat and the agent id matches.
Returns ok true when the event is a matching fresh heartbeat, ok false
when the loop just moves on to the next event. -/
def checkEvent (machine_agent_id : Nat) (e : Event) : Except Unit Bool :=
  match e.data with
  | none => .error ()
  | some d =>
    match d.event with
    | none => .error ()
    | some ev =>
      if ev = "Heartbeat" then
        match d.machineAgentId with
        | none => .error ()
        | some mid =>
          if mid = machine_agent_id then
            match e.age with
            | none => .error ()
            | some a => .ok (decide (a < 26))
          else .ok false
      else .ok false

/-- The for loop over events of the envelope branch (rse.py lines
171-180): return True at the first matching event, fall through to
return False, and let a LookupError escape to the handler. -/
def scanEventsRse (machine_agent_id : Nat) : List Event → Except Unit Bool
  | [] => .ok false
  | e :: rest =>
    match checkEvent machine_agent_id e with
    | .error u => .error u
    | .ok true => .ok true
    | .ok false => scanEventsRse machine_agent_id rest

/-- The for loop over events of the bare-sequence branch (rse.py lines
182-190); the Python source duplicates the loop body of the envelope
branch, so this definition duplicates scanEventsRse. -/
def scanEventsApi (machine_agent_id : Nat) : List Event → Except Unit Bool
  | [] => .ok false
  | e :: rest =>
    match checkEvent machine_agent_id e with
    | .error u => .error u
    | .ok true => .ok true
    | .ok false => scanEventsApi machine_agent_id rest

/-- Rse.MonitorForHeartBeat (rse.py lines 159-195): scan the polled
message for a fresh heartbeat of the given agent; the enclosing
try/except turns a LookupError raised by a missing key into False. -/
def MonitorForHeartBeat (machine_agent_id : Nat) : RseMsg → Bool
  | .envelope events =>
    match scanEventsRse machine_agent_id events with
    | .ok b => b
    | .error _ => false
  | .bare events =>
    match scanEventsApi machine_agent_id events with
    | .ok b => b
    | .error _ => false

/-- An event is well formed when every key the scan can read is present:
the data object, its Event and MachineAgentId keys, and the age key. -/
def wellFormed (e : Event) : Bool :=
  match e with
  | ⟨some d, some _⟩ => d.event.isSome && d.machineAgentId.isSome
  | _ => false

/- ============ Keep-awake thread function (agents.py lines 24-107) ============ -/

/-- The helper __check_notifier inside _keep_agent_wake_thread_fn
(agents.py lines 67-82), acting on the state of the threading.Event it
polls.  Input: whether the event is currently set.  Output: the event
state after the call and the continue_loop value returned (False exactly
when termination was detected, in which case the event was cleared). -/
def check_notifier (ev : Bool) : Bool × Bool :=
  if ev then (false, false) else (ev, true)

/-- The oracle for one iteration of the outer while loop of
_keep_agent_wake_thread_fn: whether the environment sets the notifier
event just before the top-of-loop check, the result of the
WakeSpecificAgent call, and, for each one-second tick of the period wait,
whether the environment sets the event just before that check. -/
structure OuterIter where
  topSet : Bool
  wakeOk : Bool
  sleepSets : List Bool
deriving Repr, DecidableEq

/-- The inner period wait of _keep_agent_wake_thread_fn (agents.py lines
97-102): once per second the notifier is checked via __check_notifier.
Returns the event state and the continue_loop value when the wait ends
(by exhausting the time window or by detecting termination). -/
def runSleep (ev : Bool) : List Bool → Bool × Bool
  | [] => (ev, true)
  | s :: rest =>
    match check_notifier (ev || s) with
    | (ev2, true) => runSleep ev2 rest
    | (ev2, false) => (ev2, false)

/-- The outer while loop of _keep_agent_wake_thread_fn (agents.py lines
89-107) run against a trace of iteration oracles.  Returns some evFinal
with the final notifier state when the loop terminates within the trace,
and none when the trace is exhausted with the loop still running. -/
def runThread (ev : Bool) : List OuterIter → Option Bool
  | [] => none
  | it :: rest =>
    match check_notifier (ev || it.topSet) with
    | (ev2, false) => some ev2
    | (ev2, true) =>
      if it.wakeOk then
        match runSleep ev2 it.sleepSets with
        | (ev3, true) => runThread ev3 rest
        | (ev3, false) => some ev3
      else runThread ev2 rest

/- ============ Agents task registry (agents.py lines 705-857) ============ -/

/-- One dict stored in Agents.wake_agent_threads.  The keys terminator
and thread are absent (none) until the start loop assigns them; tid is
the key id.  Event and thread objects are represented by numeric
handles. -/
structure ThreadEntry where
  tid : Nat
  terminator : Option Nat := none
  thread : Option Nat := none
deriving Repr, DecidableEq

/-- One started keep-awake thread as the runtime sees it: its thread
handle, the agent id it monitors, the handle of the threading.Event it
actually polls as my_notifier, and the rse_period it was given. -/
structure WakeTask where
  handle : Nat
  agentId : Nat
  notifier : Nat
  period : ℚ
deriving Repr, DecidableEq

/-- The mutable state of an Agents object relevant to the keep-awake
subsystem: the wake_agent_threads registry, the started and not yet
joined threads, the set of event handles currently in the set state, and
a counter for allocating fresh event/thread handles. -/
structure AgState where
  threads : List ThreadEntry
  running : List WakeTask
  setEvents : List Nat
  nextHandle : Nat
deriving Repr, DecidableEq

/-- The state of a fresh Agents object (agents.py line 728):
an empty registry. -/
def initAg : AgState := ⟨[], [], [], 0⟩

/-- Event.set semantics on the modelled set of set events. -/
def insertEvent (se : List Nat) (ev : Nat) : List Nat :=
  if ev ∈ se then se else ev :: se

/-- The in-place mutation performed by the start loop of
Agents.KeepAgentAwake on the first registry entry whose id matches:
assign a fresh Event to its terminator key. -/
def setTermFirst (machine_agent_id ev : Nat) : List ThreadEntry → List ThreadEntry
  | [] => []
  | e :: rest =>
    if e.tid = machine_agent_id then { e with terminator := some ev } :: rest
    else e :: setTermFirst machine_agent_id ev rest

/-- Agents.KeepAgentAwake (agents.py lines 815-841).  A fresh dict
holding only the id key is appended, then the loop walks the registry
and mutates the first entry whose id matches.  When no prior entry has
this id, that first match is the appended dict itself (the loop variable
aliases it), so reading wake_agent_thread[terminator] while building the
thread kwargs yields the Event just stored and the thread starts: the
returned flag is true.  When a prior entry with this id exists, the loop
mutates that prior entry instead, and reading the terminator key of the
just-appended dict (which only has an id key) raises KeyError before the
thread object is even constructed: no thread starts, the registry keeps
both the mutated prior entry and the stale appended dict, and the
returned flag is false. -/
def KeepAgentAwake (st : AgState) (machine_agent_id : Nat) (period : ℚ) :
    AgState × Bool :=
  let newEntry : ThreadEntry := { tid := machine_agent_id }
  if st.threads.any (fun e => e.tid = machine_agent_id) then
    ({ st with
        threads := setTermFirst machine_agent_id st.nextHandle st.threads ++ [newEntry],
        nextHandle := st.nextHandle + 1 }, false)
  else
    let ev := st.nextHandle
    let th := st.nextHandle + 1
    ({ st with
        threads := st.threads ++
          [{ tid := machine_agent_id, terminator := some ev, thread := some th }],
        running := st.running ++ [⟨th, machine_agent_id, ev, period⟩],
        nextHandle := st.nextHandle + 2 }, true)

/-- Thread.join semantics: joining handle th returns once the thread has
exited.  A keep-awake thread exits only after observing its notifier
event set, and __check_notifier clears the event upon observing it (see
runThread and check_notifier), so a successful join removes the thread
from the running set and removes its notifier from the set events.  When
the notifier is not set the join blocks forever: none.  Joining a handle
with no running thread returns immediately. -/
def joinThread (st : AgState) (th : Nat) : Option AgState :=
  match st.running.find? (fun t => t.handle = th) with
  | none => some st
  | some t =>
    if t.notifier ∈ st.setEvents then
      some { st with
              running := st.running.filter (fun u => u.handle ≠ th),
              setEvents := st.setEvents.filter (fun x => x ≠ t.notifier) }
    else none

/-- Agents.StopKeepAgentWake (agents.py lines 843-857).  The loop finds
the first registry entry whose id matches; absent a match it falls
through silently (no log, no error).  On a match it logs, sets the
terminator event, logs again, joins the thread, and removes the entry
(list.remove removes the first equal element).  Reading an absent
terminator or thread key raises KeyError, and joining a thread whose
polled notifier differs from the event just set blocks forever; both are
modelled as none.  The second component counts the log messages
emitted. -/
def StopKeepAgentWake (st : AgState) (machine_agent_id : Nat) :
    Option AgState × Nat :=
  match st.threads.find? (fun e => e.tid = machine_agent_id) with
  | none => (some st, 0)
  | some a =>
    match a.terminator with
    | none => (none, 1)
    | some ev =>
      let st1 := { st with setEvents := insertEvent st.setEvents ev }
      match a.thread with
      | none => (none, 2)
      | some th =>
        match joinThread st1 th with
        | none => (none, 2)
        | some st2 => (some { st2 with threads := st2.threads.erase a }, 2)

/-- A start or stop request against the keep-awake registry. -/
inductive AgOp where
  | start (machine_agent_id : Nat) (period : ℚ)
  | stop (machine_agent_id : Nat)

/-- Run one registry operation.  A failed start (KeyError escaping
KeepAgentAwake) leaves the caller with the mutated Agents object, so its
state is carried on; a stop that blocks forever or raises yields none
(no further state exists). -/
def runOp (st : AgState) : AgOp → Option AgState
  | .start machine_agent_id p => some (KeepAgentAwake st machine_agent_id p).1
  | .stop machine_agent_id => (StopKeepAgentWake st machine_agent_id).1

/-- Run a sequence of registry operations from a given state. -/
def runOps (st : AgState) : List AgOp → Option AgState
  | [] => some st
  | op :: rest =>
    match runOp st op with
    | none => none
    | some st2 => runOps st2 rest

/- ============ Agents.WakeSpecificAgent (agents.py lines 746-813) ============ -/

/-- The observable outcome of one call to Agents.WakeAgents inside the
broadcast loop: the HTTP status code returned and the wall-clock
milliseconds the call took. -/
structure WakeResp where
  status : Nat
  dur : Nat
deriving Repr, DecidableEq

/-- Total wall-clock duration of a trace of WakeAgents responses. -/
def sumDur (resps : List WakeResp) : Nat := (resps.map (fun r => r.dur)).sum

/-- The broadcast phase of Agents.WakeSpecificAgent (lines 771-779):
while the clock reads less than finish, call WakeAgents; stop with
wokeall = true as soon as a call returns status 200.  The trace supplies
successive call results; none means the trace ended while the loop would
still be calling. -/
def wakeLoop (finish : Nat) : Nat → List WakeResp → Option (Bool × Nat)
  | now, [] => if now < finish then none else some (false, now)
  | now, r :: rest =>
    if now < finish then
      if r.status = 200 then some (true, now + r.dur)
      else wakeLoop finish (now + r.dur) rest
    else some (false, now)

/-- The verify phase of Agents.WakeSpecificAgent (lines 782-788): while
the clock reads less than finish, call rse.MonitorForHeartBeat; stop with
found = true at the first true result.  The trace supplies the message
each poll would observe and the poll duration.  Returns (found, clock,
number of MonitorForHeartBeat calls made). -/
def monitorLoop (machine_agent_id finish : Nat) :
    Nat → List (RseMsg × Nat) → Option (Bool × Nat × Nat)
  | now, [] => if now < finish then none else some (false, now, 0)
  | now, (msg, d) :: rest =>
    if now < finish then
      if MonitorForHeartBeat machine_agent_id msg then some (true, now + d, 1)
      else
        match monitorLoop machine_agent_id finish (now + d) rest with
        | none => none
        | some (f, t, c) => some (f, t, c + 1)
    else some (false, now, 0)

/-- The default wake_period computation of Agents.WakeSpecificAgent
(lines 794-806), applied when keep_agent_awake is requested and no
wake_period was supplied: convert the configured real-time heartbeat
timeout from milliseconds to seconds, subtract a buffer of 5 seconds
when above 6 seconds, of 1 second when above 2 seconds, and otherwise
fall back to the fixed 70 seconds. -/
def defaultWakePeriod (realTimeMs : ℚ) : ℚ :=
  let wake_period := realTimeMs / 1000
  if wake_period > 6 then wake_period - 5
  else if wake_period > 2 then wake_period - 1
  else 70

/-- The environment a WakeSpecificAgent call runs against: the trace of
WakeAgents results, the trace of heartbeat polls, and the RealTime field
of the heartbeat configuration returned by GetRseHeartbeatConfig (in
milliseconds). -/
structure WakeEnv where
  wakeResps : List WakeResp
  monitorPolls : List (RseMsg × Nat)
  realTime : ℚ
deriving Repr, DecidableEq

/-- The outcome of a WakeSpecificAgent call: the returned boolean, the
number of calls made to rse.MonitorForHeartBeat, the Agents registry
state afterwards, and whether the call completed without the KeyError
that a duplicate KeepAgentAwake start raises. -/
structure WakeOutcome where
  ret : Bool
  monitorCalls : Nat
  st : AgState
  startOk : Bool
deriving Repr, DecidableEq

/-- Agents.WakeSpecificAgent (agents.py lines 760-813).  Phase 1
broadcasts WakeAgents until acknowledged with status 200 or the timeout
elapses; without an acknowledgement it returns False having never polled
the heartbeat channel.  Phase 2 polls rse.MonitorForHeartBeat under a
fresh deadline of the same length.  When the agent was found and
keep_agent_awake is set, KeepAgentAwake is started with the supplied
wake_period, or with the default derived from the heartbeat
configuration when none was supplied. -/
def WakeSpecificAgent (machine_agent_id : Nat) (timeoutMilliseconds : Nat)
    (keep_agent_awake : Bool) (wake_period : Option ℚ)
    (env : WakeEnv) (st : AgState) (now : Nat) : Option WakeOutcome :=
  match wakeLoop (now + timeoutMilliseconds) now env.wakeResps with
  | none => none
  | some (wokeall, t1) =>
    if wokeall then
      match monitorLoop machine_agent_id (t1 + timeoutMilliseconds) t1 env.monitorPolls with
      | none => none
      | some (woke_agent, _, calls) =>
        if woke_agent then
          if keep_agent_awake then
            let period :=
              match wake_period with
              | some p => p
              | none => defaultWakePeriod env.realTime
            let started := KeepAgentAwake st machine_agent_id period
            some ⟨true, calls, started.1, started.2⟩
          else some ⟨true, calls, st, true⟩
        else some ⟨false, calls, st, true⟩
    else some ⟨false, 0, st, true⟩

/- ============ Agents teardown (agents.py lines 731-744) ============ -/

/-- The first loop of Agents.__del__: set the terminator event of every
registry entry, in registry order, before any join is attempted.
Returns the updated set-event collection and the ordered list of event
handles that were set; an entry without a terminator key raises KeyError
(none). -/
def delPhase1 (se : List Nat) : List ThreadEntry → Option (List Nat × List Nat)
  | [] => some (se, [])
  | e :: rest =>
    match e.terminator with
    | none => none
    | some ev =>
      match delPhase1 (insertEvent se ev) rest with
      | none => none
      | some (se2, evs) => some (se2, ev :: evs)

/-- The second loop of Agents.__del__: join every registry entry thread,
in registry order.  An entry without a thread key raises KeyError, and a
join that never returns is none (see joinThread). -/
def delPhase2 (st : AgState) : List ThreadEntry → Option AgState
  | [] => some st
  | e :: rest =>
    match e.thread with
    | none => none
    | some th =>
      match joinThread st th with
      | none => none
      | some st2 => delPhase2 st2 rest

/-- Agents.__del__ (agents.py lines 731-744), keep-awake part: first
tell every registered thread to terminate by setting its terminator
event (so that none waits on another during signal delivery), and only
then join each one.  Returns the final state and the ordered list of
event handles set during the broadcast phase. -/
def delAgents (st : AgState) : Option (AgState × List Nat) :=
  match delPhase1 st.setEvents st.threads with
  | none => none
  | some (se, evs) =>
    match delPhase2 { st with setEvents := se } st.threads with
    | none => none
    | some st2 => some (st2, evs)

/- ============ AgentLogLevel (agents.py lines 124-263) ============ -/

/-- The log level strings accepted by AgentLogLevel.SetLogLevel (line
185).  The numeric alternatives 1-7 cannot equal a stored string, so
only the names matter for values read back from the stack. -/
def validLevel (level : String) : Bool :=
  level ∈ ["Fatal", "Error", "Warn", "Info", "Debug", "Trace", "All"]

/-- AgentLogLevel.SetLogLevel (agents.py lines 170-215) as seen by
PopLogLevel: an invalid level raises ValueError before any request is
made (error); otherwise the call returns whether the server answered
204, supplied here by the oracle httpOk. -/
def SetLogLevelModel (level : String) (httpOk : Bool) : Except Unit Bool :=
  if validLevel level then .ok httpOk else .error ()

/-- Replace the value stored under a key of the loglevel dict, which
PopLogLevel only does for a key already present. -/
def updateAssoc (m : List (Nat × List String)) (k : Nat) (v : List String) :
    List (Nat × List String) :=
  match m with
  | [] => []
  | (k2, v2) :: rest =>
    if k2 = k then (k2, v) :: rest else (k2, v2) :: updateAssoc rest k v

/-- AgentLogLevel.PopLogLevel (agents.py lines 243-263) acting on the
saved-level dict self.loglevel, with the server response to the inner
SetLogLevel supplied by httpOk.  With no entry or an empty stack it only
logs.  Otherwise it reads the top of the stack (index len - 1), calls
SetLogLevel, and pops the top exactly when that call returned True; a
ValueError raised for an invalid stored level escapes with the dict
unchanged (error carries the unchanged dict). -/
def PopLogLevel (m : List (Nat × List String)) (machine_agent_id : Nat)
    (httpOk : Bool) :
    Except (List (Nat × List String)) (List (Nat × List String)) :=
  match m.lookup machine_agent_id with
  | none => .ok m
  | some stack =>
    if stack.length ≠ 0 then
      let level := stack.getLast?.getD ""
      match SetLogLevelModel level httpOk with
      | .error _ => .error m
      | .ok true => .ok (updateAssoc m machine_agent_id stack.dropLast)
      | .ok false => .ok m
    else .ok m

/-- The dict state after a PopLogLevel call, whether it returned or
raised: Python leaves the object in the state it reached either way. -/
def stateOf {α : Type} : Except α α → α
  | .ok s => s
  | .error s => s

/- ===================== Helper lemmas ===================== -/

/-- The duplicated loop bodies of the two branches of MonitorForHeartBeat
compute the same scan result. -/
theorem scanEventsApi_eq_scanRse (machine_agent_id : Nat) :
    ∀ events, scanEventsApi machine_agent_id events =
      scanEventsRse machine_agent_id events
  | [] => rfl
  | e :: rest => by
    cases h : checkEvent machine_agent_id e with
    | error u => simp [scanEventsApi, scanEventsRse, h]
    | ok b =>
      cases b <;>
        simp [scanEventsApi, scanEventsRse, h,
          scanEventsApi_eq_scanRse machine_agent_id rest]

/-- A check_notifier call that returns continue_loop = False has cleared
the event. -/
theorem check_notifier_stop (ev ev2 : Bool)
    (h : check_notifier ev = (ev2, false)) : ev2 = false := by
  cases ev <;> simp [check_notifier] at h
  exact h

/-- A period wait that ends with continue_loop = False has cleared the
event. -/
theorem runSleep_stop :
    ∀ (l : List Bool) (ev ev2 : Bool), runSleep ev l = (ev2, false) → ev2 = false := by
  intro l
  induction l with
  | nil => intro ev ev2 h; simp [runSleep] at h
  | cons s rest ih =>
    intro ev ev2 h
    unfold runSleep at h
    cases hc : check_notifier (ev || s) with
    | mk a b =>
      rw [hc] at h
      cases b
      · simp at h
        rw [← h]
        exact check_notifier_stop _ _ hc
      · simp at h
        exact ih a ev2 h

/- ===================== Claim theorems ===================== -/

/-- C6: MonitorForHeartBeat produces the same result on the envelope
response shape and on the bare list of the same events: the two branches
of rse.py lines 168-192 run the same scan. -/
theorem monitor_envelope_bare_eq (machine_agent_id : Nat) (events : List Event) :
    MonitorForHeartBeat machine_agent_id (.envelope events) =
      MonitorForHeartBeat machine_agent_id (.bare events) := by
  simp [MonitorForHeartBeat, scanEventsApi_eq_scanRse]

/-- C5: with keep_agent_awake and no supplied wake_period,
WakeSpecificAgent derives the period from the configured real-time
heartbeat timeout converted to seconds: timeout minus 5 when the timeout
exceeds 6 seconds, timeout minus 1 when it exceeds 2 seconds but not 6,
and the fixed 70 seconds otherwise. -/
theorem default_wake_period_cases (realTimeMs : ℚ) :
    (6 < realTimeMs / 1000 →
       defaultWakePeriod realTimeMs = realTimeMs / 1000 - 5) ∧
    (2 < realTimeMs / 1000 ∧ realTimeMs / 1000 ≤ 6 →
       defaultWakePeriod realTimeMs = realTimeMs / 1000 - 1) ∧
    (realTimeMs / 1000 ≤ 2 → defaultWakePeriod realTimeMs = 70) := by
  refine ⟨fun h => ?_, fun h => ?_, fun h => ?_⟩
  · simp only [defaultWakePeriod]
    rw [if_pos h]
  · simp only [defaultWakePeriod]
    rw [if_neg (by linarith [h.2] : ¬ realTimeMs / 1000 > 6), if_pos h.1]
  · simp only [defaultWakePeriod]
    rw [if_neg (by linarith : ¬ realTimeMs / 1000 > 6),
      if_neg (by linarith : ¬ realTimeMs / 1000 > 2)]

/-- Witness for C5 at a concrete 8-second configured timeout. -/
theorem default_wake_period_witness :
    (6 : ℚ) < 8000 / 1000 ∧ defaultWakePeriod 8000 = 8000 / 1000 - 5 :=
  ⟨by norm_num, (default_wake_period_cases 8000).1 (by norm_num)⟩

/-- C9: whenever the keep-awake loop terminates by observing its
notifier event at a checkpoint (loop top or a per-second sleep check),
__check_notifier has cleared the event first, so the event is no longer
set once termination has been observed. -/
theorem keep_awake_clears_notifier :
    ∀ (trace : List OuterIter) (ev evF : Bool),
      runThread ev trace = some evF → evF = false := by
  intro trace
  induction trace with
  | nil => intro ev evF h; simp [runThread] at h
  | cons it rest ih =>
    intro ev evF h
    unfold runThread at h
    cases hc : check_notifier (ev || it.topSet) with
    | mk a b =>
      rw [hc] at h
      cases b
      · simp at h
        rw [← h]
        exact check_notifier_stop _ _ hc
      · simp at h
        cases hw : it.wakeOk
        · rw [hw] at h
          simp at h
          exact ih a evF h
        · rw [hw] at h
          simp at h
          cases hsl : runSleep a it.sleepSets with
          | mk ev3 c3 =>
            rw [hsl] at h
            cases c3
            · simp at h
              rw [← h]
              exact runSleep_stop _ _ _ hsl
            · simp at h
              exact ih ev3 evF h

/-- Witness for C9: a trace in which the event is set before the first
top-of-loop check terminates with the event cleared. -/
theorem keep_awake_clears_witness :
    runThread false [⟨true, false, []⟩] = some false ∧ (false : Bool) = false :=
  ⟨rfl, keep_awake_clears_notifier [⟨true, false, []⟩] false false rfl⟩

/-- C8 counterexample to the claim as stated: stopping an agent id with
no registered keep-awake task emits no log message at all (the loop in
StopKeepAgentWake only logs after finding a matching entry), so the
claimed logged no-op is in fact a silent no-op. -/
theorem stop_unlogged_counterexample :
    (StopKeepAgentWake initAg 7).1 = some initAg ∧
      ¬ 1 ≤ (StopKeepAgentWake initAg 7).2 := by decide

/-- C8 amended: for an agent id with no registered keep-awake task,
StopKeepAgentWake is a silent no-op: it raises no error, emits no log
message, and leaves the registry (whole state) unchanged, hence a second
stop for the same id behaves identically. -/
theorem stop_nonexistent_noop (st : AgState) (machine_agent_id : Nat)
    (h : ∀ e ∈ st.threads, e.tid ≠ machine_agent_id) :
    StopKeepAgentWake st machine_agent_id = (some st, 0) := by
  have hf : st.threads.find? (fun e => e.tid = machine_agent_id) = none := by
    rw [List.find?_eq_none]
    intro x hx
    simp [h x hx]
  simp [StopKeepAgentWake, hf]

/-- Witness for C8 amended on a registry holding a task for another
agent id. -/
theorem stop_nonexistent_witness :
    StopKeepAgentWake ⟨[⟨3, some 0, some 1⟩], [⟨1, 3, 0, 70⟩], [], 2⟩ 7 =
      (some ⟨[⟨3, some 0, some 1⟩], [⟨1, 3, 0, 70⟩], [], 2⟩, 0) :=
  stop_nonexistent_noop ⟨[⟨3, some 0, some 1⟩], [⟨1, 3, 0, 70⟩], [], 2⟩ 7 (by decide)

/-- Looking up a key other than the updated one is unchanged by
updateAssoc. -/
theorem lookup_updateAssoc_ne (m : List (Nat × List String)) (k i : Nat)
    (v : List String) (h : k ≠ i) :
    (updateAssoc m i v).lookup k = m.lookup k := by
  induction m with
  | nil => rfl
  | cons p rest ih =>
    obtain ⟨k2, v2⟩ := p
    by_cases h2 : k2 = i
    · subst h2
      have hbeq : (k == k2) = false := by simpa using h
      simp [updateAssoc, List.lookup, hbeq]
    · simp [updateAssoc, List.lookup, h2, ih]

/-- Looking up the updated key after updateAssoc yields the new value,
provided the key was present. -/
theorem lookup_updateAssoc_self (m : List (Nat × List String)) (i : Nat)
    (v w : List String) (h : m.lookup i = some w) :
    (updateAssoc m i v).lookup i = some v := by
  induction m with
  | nil => simp [List.lookup] at h
  | cons p rest ih =>
    obtain ⟨k2, v2⟩ := p
    by_cases h2 : k2 = i
    · subst h2
      simp [updateAssoc, List.lookup]
    · have hbeq : (i == k2) = false := by simpa using Ne.symm h2
      simp [List.lookup, hbeq] at h
      simp [updateAssoc, List.lookup, h2, hbeq, ih h]

/-- C10: PopLogLevel is atomic with respect to the saved-level dict.
Stacks of other agent ids are never touched; a missing or empty stack
leaves everything unchanged; with a non-empty stack whose top is a valid
level, the top is popped exactly when SetLogLevel reports success (the
server answered 204) and the dict is untouched when it fails; an invalid
stored top makes SetLogLevel raise ValueError before any request, which
escapes with the dict unchanged. -/
theorem poploglevel_atomic (m : List (Nat × List String))
    (machine_agent_id : Nat) (httpOk : Bool) :
    (∀ k, k ≠ machine_agent_id →
        (stateOf (PopLogLevel m machine_agent_id httpOk)).lookup k = m.lookup k) ∧
    (m.lookup machine_agent_id = none →
        PopLogLevel m machine_agent_id httpOk = .ok m) ∧
    (m.lookup machine_agent_id = some [] →
        PopLogLevel m machine_agent_id httpOk = .ok m) ∧
    (∀ stack, m.lookup machine_agent_id = some stack → stack ≠ [] →
        validLevel (stack.getLast?.getD "") = true →
          PopLogLevel m machine_agent_id httpOk =
            .ok (if httpOk then updateAssoc m machine_agent_id stack.dropLast
                 else m)) ∧
    (∀ stack, m.lookup machine_agent_id = some stack → stack ≠ [] →
        validLevel (stack.getLast?.getD "") = false →
          PopLogLevel m machine_agent_id httpOk = .error m) := by
  cases hl : m.lookup machine_agent_id with
  | none =>
    have hpop : PopLogLevel m machine_agent_id httpOk = .ok m := by
      simp [PopLogLevel, hl]
    exact ⟨fun k hk => by simp [hpop, stateOf], fun _ => hpop, fun _ => hpop,
        fun stack hs hne hvv => absurd hs (by simp),
        fun stack hs hne hvv => absurd hs (by simp)⟩
  | some stack0 =>
    by_cases hst : stack0 = []
    · subst hst
      have hpop : PopLogLevel m machine_agent_id httpOk = .ok m := by
        simp [PopLogLevel, hl]
      exact ⟨fun k hk => by simp [hpop, stateOf], fun _ => hpop, fun _ => hpop,
          fun stack hs hne hvv =>
            absurd (Option.some.injEq _ _ ▸ hs).symm hne,
          fun stack hs hne hvv =>
            absurd (Option.some.injEq _ _ ▸ hs).symm hne⟩
    · have hlen : stack0.length ≠ 0 := by
        simpa [List.length_eq_zero] using hst
      cases hv : validLevel (stack0.getLast?.getD "") with
      | false =>
        have hpop : PopLogLevel m machine_agent_id httpOk = .error m := by
          simp [PopLogLevel, hl, hlen, SetLogLevelModel, hv]
        refine ⟨fun k hk => by simp [hpop, stateOf], fun h => absurd h (by simp),
            fun h => absurd (Option.some.injEq _ _ ▸ h) hst,
            fun stack hs hne hvv => ?_, fun stack hs hne hvv => hpop⟩
        have heq : stack0 = stack := Option.some.injEq _ _ ▸ hs
        rw [← heq, hv] at hvv
        exact absurd hvv (by simp)
      | true =>
        have hpop : PopLogLevel m machine_agent_id httpOk =
            .ok (if httpOk then updateAssoc m machine_agent_id stack0.dropLast
                 else m) := by
          cases httpOk <;>
            simp [PopLogLevel, hl, hlen, SetLogLevelModel, hv]
        refine ⟨fun k hk => ?_, fun h => absurd h (by simp),
            fun h => absurd (Option.some.injEq _ _ ▸ h) hst,
            fun stack hs hne hvv => ?_, fun stack hs hne hvv => ?_⟩
        · rw [hpop]
          cases httpOk with
          | false => simp [stateOf]
          | true => simp [stateOf, lookup_updateAssoc_ne m k machine_agent_id _ hk]
        · have heq : stack0 = stack := Option.some.injEq _ _ ▸ hs
          rw [← heq]
          exact hpop
        · have heq : stack0 = stack := Option.some.injEq _ _ ▸ hs
          rw [← heq, hv] at hvv
          exact absurd hvv (by simp)

/-- Witness for C10: popping a one-level stack with a successful
SetLogLevel empties that stack. -/
theorem poploglevel_witness :
    PopLogLevel [(1, ["Warn"])] 1 true = .ok [(1, [])] := by
  have h := (poploglevel_atomic [(1, ["Warn"])] 1 true).2.2.2.1 ["Warn"]
    rfl (by decide) (by decide)
  simpa [updateAssoc] using h

/-- Under well-formed events the envelope scan never raises and finds a
match exactly when some event is a fresh heartbeat of the agent. -/
theorem scanRse_true_iff (machine_agent_id : Nat) :
    ∀ events, (∀ e ∈ events, wellFormed e = true) →
      (scanEventsRse machine_agent_id events = .ok true ↔
        ∃ e ∈ events, ∃ d, e.data = some d ∧ d.event = some "Heartbeat" ∧
          d.machineAgentId = some machine_agent_id ∧
          ∃ a, e.age = some a ∧ a < 26)
  | [], _ => by simp [scanEventsRse]
  | e :: rest, h => by
    have hwf := h e (by simp)
    have ih := scanRse_true_iff machine_agent_id rest (fun x hx => h x (by simp [hx]))
    obtain ⟨od, oa⟩ := e
    cases od with
    | none => simp [wellFormed] at hwf
    | some d =>
      cases oa with
      | none => simp [wellFormed] at hwf
      | some a =>
        obtain ⟨oev, omid⟩ := d
        cases oev with
        | none => simp [wellFormed] at hwf
        | some ev =>
          cases omid with
          | none => simp [wellFormed] at hwf
          | some mid =>
            by_cases hev : ev = "Heartbeat"
            · subst hev
              by_cases hmid : mid = machine_agent_id
              · subst hmid
                by_cases hage : a < 26
                · simp [scanEventsRse, checkEvent, hage]
                · simp [scanEventsRse, checkEvent, hage, ih]
              · simp [scanEventsRse, checkEvent, hmid, ih]
            · simp [scanEventsRse, checkEvent, hev, ih]

/-- C1: over a response whose events all carry the expected keys,
MonitorForHeartBeat returns true exactly when some event has event type
Heartbeat, the requested agent id, and age strictly below 26; an
otherwise matching event of age 26 or older is not a match. -/
theorem monitor_heartbeat_iff (machine_agent_id : Nat) (events : List Event)
    (h : ∀ e ∈ events, wellFormed e = true) :
    (MonitorForHeartBeat machine_agent_id (.envelope events) = true ↔
      ∃ e ∈ events, ∃ d, e.data = some d ∧ d.event = some "Heartbeat" ∧
        d.machineAgentId = some machine_agent_id ∧
        ∃ a, e.age = some a ∧ a < 26) := by
  rw [← scanRse_true_iff machine_agent_id events h]
  cases hs : scanEventsRse machine_agent_id events with
  | error u => simp [MonitorForHeartBeat, hs]
  | ok b => cases b <;> simp [MonitorForHeartBeat, hs]

/-- Witness for C1: a well-formed fresh heartbeat for agent 5 is
reported, with the age boundary visible in the instantiated property. -/
theorem monitor_heartbeat_witness :
    MonitorForHeartBeat 5 (.envelope [⟨some ⟨some "Heartbeat", some 5⟩, some 3⟩]) = true :=
  (monitor_heartbeat_iff 5 [⟨some ⟨some "Heartbeat", some 5⟩, some 3⟩]
      (by decide)).mpr
    ⟨⟨some ⟨some "Heartbeat", some 5⟩, some 3⟩, by simp,
      ⟨some "Heartbeat", some 5⟩, rfl, rfl, rfl, 3, rfl, by norm_num⟩

/-- A prefix scanned to ok false neither matches nor raises, so scanning
an extended list continues after it. -/
theorem scanRse_append_of_ok_false (machine_agent_id : Nat) :
    ∀ pre evs, scanEventsRse machine_agent_id pre = .ok false →
      scanEventsRse machine_agent_id (pre ++ evs) =
        scanEventsRse machine_agent_id evs
  | [], evs, _ => rfl
  | e :: rest, evs, h => by
    cases hc : checkEvent machine_agent_id e with
    | error u => simp [scanEventsRse, hc] at h
    | ok b =>
      cases b
      · simp only [scanEventsRse, hc] at h
        simp only [List.cons_append, scanEventsRse, hc]
        exact scanRse_append_of_ok_false machine_agent_id rest evs h
      · simp [scanEventsRse, hc] at h

/-- C4 counterexample to the claim as stated: a response holding a
matching well-formed heartbeat followed by a malformed entry (its data
key absent) yields true, not false: the scan returns at the first match
and never reaches the malformed entry, so a malformed entry does not
make the whole poll fail regardless of position. -/
theorem monitor_malformed_counterexample :
    ((⟨none, some 3⟩ : Event).data = none) ∧
      MonitorForHeartBeat 42
        (.envelope [⟨some ⟨some "Heartbeat", some 42⟩, some 3⟩, ⟨none, some 3⟩]) =
          true :=
  ⟨rfl, rfl⟩

/-- C4 amended: a malformed entry poisons the whole poll attempt only
when the scan reaches it before any match: if no earlier event matches
(and none earlier raises), the attempt returns false regardless of any
well-formed matching events after the malformed one. -/
theorem monitor_malformed_before_match (machine_agent_id : Nat)
    (pre post : List Event) (bad : Event)
    (h1 : scanEventsRse machine_agent_id pre = .ok false)
    (h2 : checkEvent machine_agent_id bad = .error ()) :
    MonitorForHeartBeat machine_agent_id (.envelope (pre ++ bad :: post)) = false := by
  have hs : scanEventsRse machine_agent_id (pre ++ bad :: post) = .error () := by
    rw [scanRse_append_of_ok_false machine_agent_id pre (bad :: post) h1]
    simp [scanEventsRse, h2]
  simp [MonitorForHeartBeat, hs]

/-- Witness for C4 amended: a stale heartbeat, then a malformed entry,
then a fresh matching heartbeat: the poll fails despite the later
match. -/
theorem monitor_malformed_witness :
    MonitorForHeartBeat 1
      (.envelope ([⟨some ⟨some "Heartbeat", some 1⟩, some 30⟩] ++
        (⟨none, none⟩ : Event) :: [⟨some ⟨some "Heartbeat", some 1⟩, some 3⟩])) =
      false :=
  monitor_malformed_before_match 1 _ _ _ rfl rfl

/-- When no WakeAgents response in the trace carries status 200 and the
trace spans at least the timeout, the broadcast loop runs out of time
and reports wokeall = false. -/
theorem wakeLoop_no_ack :
    ∀ (resps : List WakeResp) (finish now : Nat),
      (∀ r ∈ resps, r.status ≠ 200) → finish ≤ now + sumDur resps →
      ∃ t, wakeLoop finish now resps = some (false, t) := by
  intro resps
  induction resps with
  | nil =>
    intro finish now _ hlong
    refine ⟨now, ?_⟩
    have : ¬ now < finish := by
      simp [sumDur] at hlong
      omega
    simp [wakeLoop, this]
  | cons r rest ih =>
    intro finish now h200 hlong
    by_cases hn : now < finish
    · have hr : r.status ≠ 200 := h200 r (by simp)
      have hrest : ∀ x ∈ rest, x.status ≠ 200 := fun x hx => h200 x (by simp [hx])
      have hlong2 : finish ≤ now + r.dur + sumDur rest := by
        simp [sumDur] at hlong ⊢
        omega
      obtain ⟨t, ht⟩ := ih finish (now + r.dur) hrest hlong2
      exact ⟨t, by simp [wakeLoop, hn, hr, ht]⟩
    · exact ⟨now, by simp [wakeLoop, hn]⟩

/-- C2: when no broadcast-wake attempt is acknowledged with status 200
before the timeout deadline elapses, WakeSpecificAgent returns false,
makes zero calls to rse.MonitorForHeartBeat, and leaves the keep-awake
registry untouched: the verify phase runs only after an acknowledged
broadcast phase. -/
theorem wake_no_ack_short_circuit (machine_agent_id timeoutMilliseconds now : Nat)
    (keep_agent_awake : Bool) (wake_period : Option ℚ)
    (env : WakeEnv) (st : AgState)
    (h200 : ∀ r ∈ env.wakeResps, r.status ≠ 200)
    (hlong : timeoutMilliseconds ≤ sumDur env.wakeResps) :
    ∃ res, WakeSpecificAgent machine_agent_id timeoutMilliseconds
        keep_agent_awake wake_period env st now = some res ∧
      res.ret = false ∧ res.monitorCalls = 0 ∧ res.st = st := by
  obtain ⟨t, ht⟩ := wakeLoop_no_ack env.wakeResps (now + timeoutMilliseconds) now
    h200 (by omega)
  exact ⟨⟨false, 0, st, true⟩, by simp [WakeSpecificAgent, ht], rfl, rfl, rfl⟩

/-- Witness for C2: a trace of one refused broadcast lasting past the
5 ms deadline produces the short-circuit failure. -/
theorem wake_no_ack_witness :
    ∃ res, WakeSpecificAgent 9 5 false none ⟨[⟨500, 10⟩], [], 0⟩ initAg 0 = some res ∧
      res.ret = false ∧ res.monitorCalls = 0 ∧ res.st = initAg :=
  wake_no_ack_short_circuit 9 5 0 false none ⟨[⟨500, 10⟩], [], 0⟩ initAg
    (by decide) (by decide)

/- ===================== Registry invariant (C3) ===================== -/

/-- Invariant of the keep-awake subsystem maintained by every sequence
of start/stop operations: running threads have pairwise distinct agent
ids, every running thread is witnessed by a registry entry carrying its
agent id and thread handle, thread handles are pairwise distinct, and
all handles are below the freshness counter. -/
def InvAg (st : AgState) : Prop :=
  (st.running.map WakeTask.agentId).Nodup ∧
  (∀ t ∈ st.running, ∃ e ∈ st.threads, e.tid = t.agentId ∧ e.thread = some t.handle) ∧
  (st.running.map WakeTask.handle).Nodup ∧
  (∀ t ∈ st.running, t.handle < st.nextHandle)

/-- setTermFirst only rewrites the terminator of one entry: every member
of the original list has an image with the same id and thread keys. -/
theorem setTermFirst_shadow (machine_agent_id ev : Nat) :
    ∀ (l : List ThreadEntry) (e : ThreadEntry), e ∈ l →
      ∃ e2 ∈ setTermFirst machine_agent_id ev l, e2.tid = e.tid ∧ e2.thread = e.thread := by
  intro l
  induction l with
  | nil => intro e he; simp at he
  | cons f rest ih =>
    intro e he
    by_cases hf : f.tid = machine_agent_id
    · rcases List.mem_cons.mp he with he2 | he2
      · subst he2
        exact ⟨{ e with terminator := some ev }, by simp [setTermFirst, hf], rfl, rfl⟩
      · exact ⟨e, by simp [setTermFirst, hf, he2], rfl, rfl⟩
    · rcases List.mem_cons.mp he with he2 | he2
      · subst he2
        exact ⟨e, by simp [setTermFirst, hf], rfl, rfl⟩
      · obtain ⟨e2, hmem, h1, h2⟩ := ih e he2
        exact ⟨e2, by simp [setTermFirst, hf, hmem], h1, h2⟩

/-- KeepAgentAwake preserves the registry invariant, whether the start
succeeds or fails with the duplicate-id KeyError. -/
theorem inv_keepAwake (st : AgState) (machine_agent_id : Nat) (p : ℚ)
    (h : InvAg st) : InvAg (KeepAgentAwake st machine_agent_id p).1 := by
  obtain ⟨ha, hb, hc, hd⟩ := h
  by_cases hex : ∃ e ∈ st.threads, e.tid = machine_agent_id
  · have hany : st.threads.any (fun e => e.tid = machine_agent_id) = true := by
      simpa using hex
    have hgoal : (KeepAgentAwake st machine_agent_id p).1 =
        { st with
            threads := setTermFirst machine_agent_id st.nextHandle st.threads ++
              [{ tid := machine_agent_id }],
            nextHandle := st.nextHandle + 1 } := by
      simp [KeepAgentAwake, hany]
    rw [hgoal]
    refine ⟨ha, fun t ht => ?_, hc, fun t ht => ?_⟩
    · obtain ⟨e, he, h1, h2⟩ := hb t ht
      obtain ⟨e2, hmem, g1, g2⟩ := setTermFirst_shadow machine_agent_id st.nextHandle
        st.threads e he
      exact ⟨e2, List.mem_append_left _ hmem, g1.trans h1, g2.trans h2⟩
    · have := hd t ht
      show t.handle < st.nextHandle + 1
      omega
  · have hnone : ∀ e ∈ st.threads, e.tid ≠ machine_agent_id := by
      intro e he heq
      exact hex ⟨e, he, heq⟩
    have hany : st.threads.any (fun e => e.tid = machine_agent_id) = false := by
      simpa using hnone
    have hgoal : (KeepAgentAwake st machine_agent_id p).1 =
        { st with
            threads := st.threads ++
              [{ tid := machine_agent_id, terminator := some st.nextHandle,
                 thread := some (st.nextHandle + 1) }],
            running := st.running ++
              [⟨st.nextHandle + 1, machine_agent_id, st.nextHandle, p⟩],
            nextHandle := st.nextHandle + 2 } := by
      simp [KeepAgentAwake, hany]
    have hidfree : machine_agent_id ∉ st.running.map WakeTask.agentId := by
      intro hmem
      obtain ⟨t, ht, hta⟩ := List.mem_map.mp hmem
      obtain ⟨e, he, h1, _⟩ := hb t ht
      exact hnone e he (h1.trans hta)
    have hhandlefree : st.nextHandle + 1 ∉ st.running.map WakeTask.handle := by
      intro hmem
      obtain ⟨t, ht, hta⟩ := List.mem_map.mp hmem
      have := hd t ht
      omega
    rw [hgoal]
    refine ⟨?_, fun t ht => ?_, ?_, fun t ht => ?_⟩
    · simp only [List.map_append, List.map_cons, List.map_nil]
      rw [List.nodup_append]
      exact ⟨ha, List.nodup_singleton _, by simpa using hidfree⟩
    · rcases List.mem_append.mp ht with ht2 | ht2
      · obtain ⟨e, he, h1, h2⟩ := hb t ht2
        exact ⟨e, List.mem_append_left _ he, h1, h2⟩
      · have hte : t = ⟨st.nextHandle + 1, machine_agent_id, st.nextHandle, p⟩ := by
          simpa using ht2
        subst hte
        exact ⟨⟨machine_agent_id, some st.nextHandle, some (st.nextHandle + 1)⟩,
          List.mem_append_right _ (by simp), rfl, rfl⟩
    · simp only [List.map_append, List.map_cons, List.map_nil]
      rw [List.nodup_append]
      exact ⟨hc, List.nodup_singleton _, by simpa using hhandlefree⟩
    · rcases List.mem_append.mp ht with ht2 | ht2
      · have := hd t ht2
        show t.handle < st.nextHandle + 2
        omega
      · have hte : t = ⟨st.nextHandle + 1, machine_agent_id, st.nextHandle, p⟩ := by
          simpa using ht2
        subst hte
        show st.nextHandle + 1 < st.nextHandle + 2
        omega

/-- StopKeepAgentWake preserves the registry invariant whenever it
returns (rather than raising or blocking forever). -/
theorem inv_stop (st : AgState) (machine_agent_id : Nat) (st2 : AgState)
    (h : InvAg st) (hs : (StopKeepAgentWake st machine_agent_id).1 = some st2) :
    InvAg st2 := by
  obtain ⟨ha, hb, hc, hd⟩ := h
  cases hfind : st.threads.find? (fun e => e.tid = machine_agent_id) with
  | none =>
    simp only [StopKeepAgentWake, hfind] at hs
    obtain rfl := Option.some.inj hs
    exact ⟨ha, hb, hc, hd⟩
  | some a =>
    cases hterm : a.terminator with
    | none => simp [StopKeepAgentWake, hfind, hterm] at hs
    | some ev =>
      cases hth : a.thread with
      | none => simp [StopKeepAgentWake, hfind, hterm, hth] at hs
      | some th =>
        simp only [StopKeepAgentWake, hfind, hterm, hth] at hs
        cases hfd : st.running.find? (fun t => t.handle = th) with
        | none =>
          have hj : joinThread { st with setEvents := insertEvent st.setEvents ev } th =
              some { st with setEvents := insertEvent st.setEvents ev } := by
            simp [joinThread, hfd]
          rw [hj] at hs
          simp only [Option.some.injEq] at hs
          subst hs
          refine ⟨ha, fun t ht => ?_, hc, hd⟩
          obtain ⟨e, he, h1, h2⟩ := hb t ht
          have hne : e ≠ a := by
            intro heq
            subst heq
            rw [hth] at h2
            have : t.handle = th := by
              simpa using h2.symm
            have hnot := List.find?_eq_none.mp hfd t ht
            simp [this] at hnot
          exact ⟨e, (List.mem_erase_of_ne hne).mpr he, h1, h2⟩
        | some t0 =>
          have ht0h : t0.handle = th := by
            simpa using List.find?_some hfd
          by_cases hin : t0.notifier ∈ insertEvent st.setEvents ev
          · have hj : joinThread { st with setEvents := insertEvent st.setEvents ev } th =
                some { st with
                        running := st.running.filter (fun u => u.handle ≠ th),
                        setEvents := (insertEvent st.setEvents ev).filter
                          (fun x => x ≠ t0.notifier) } := by
              simp [joinThread, hfd, hin]
            rw [hj] at hs
            simp only [Option.some.injEq] at hs
            subst hs
            refine ⟨?_, fun t ht => ?_, ?_, fun t ht => ?_⟩
            · exact List.Nodup.sublist
                (List.Sublist.map _ (List.filter_sublist _)) ha
            · obtain ⟨htm, hpred⟩ := List.mem_filter.mp ht
              have hpred2 : t.handle ≠ th := by simpa using hpred
              obtain ⟨e, he, h1, h2⟩ := hb t htm
              have hne : e ≠ a := by
                intro heq
                subst heq
                rw [hth] at h2
                exact hpred2 (by simpa using h2.symm)
              exact ⟨e, (List.mem_erase_of_ne hne).mpr he, h1, h2⟩
            · exact List.Nodup.sublist
                (List.Sublist.map _ (List.filter_sublist _)) hc
            · exact hd t (List.mem_filter.mp ht).1
          · have hj : joinThread { st with setEvents := insertEvent st.setEvents ev } th =
                none := by
              simp [joinThread, hfd, hin]
            rw [hj] at hs
            simp at hs

/-- Every sequence of registry operations preserves the invariant. -/
theorem inv_runOps :
    ∀ (ops : List AgOp) (st st2 : AgState),
      InvAg st → runOps st ops = some st2 → InvAg st2
  | [], st, st2, h, hr => by
    simp only [runOps, Option.some.injEq] at hr
    exact hr ▸ h
  | op :: rest, st, st2, h, hr => by
    simp only [runOps] at hr
    cases hro : runOp st op with
    | none => rw [hro] at hr; simp at hr
    | some st3 =>
      rw [hro] at hr
      have h3 : InvAg st3 := by
        cases op with
        | start machine_agent_id p =>
          have he : st3 = (KeepAgentAwake st machine_agent_id p).1 := by
            simpa [runOp] using hro.symm
          exact he ▸ inv_keepAwake st machine_agent_id p h
        | stop machine_agent_id =>
          exact inv_stop st machine_agent_id st3 h (by simpa [runOp] using hro)
      exact inv_runOps rest st3 st2 h3 hr

/-- C3: across every sequence of KeepAgentAwake / StopKeepAgentWake
operations from a fresh Agents object, the running keep-awake threads
have pairwise distinct agent ids (at most one active task per id), and
a start for an agent id that already has an active task is rejected:
the KeyError raised while building the thread arguments aborts the call
before any thread starts, leaving the running set unchanged. -/
theorem keep_awake_single_per_id (ops : List AgOp) (st : AgState)
    (h : runOps initAg ops = some st) :
    (st.running.map WakeTask.agentId).Nodup ∧
    (∀ machine_agent_id p, (∃ t ∈ st.running, t.agentId = machine_agent_id) →
      (KeepAgentAwake st machine_agent_id p).2 = false ∧
      (KeepAgentAwake st machine_agent_id p).1.running = st.running) := by
  have hinv : InvAg st := inv_runOps ops initAg st
    (by exact ⟨by simp [initAg], by simp [initAg], by simp [initAg], by simp [initAg]⟩) h
  refine ⟨hinv.1, fun machine_agent_id p hex => ?_⟩
  obtain ⟨t, ht, hta⟩ := hex
  obtain ⟨e, he, h1, _⟩ := hinv.2.1 t ht
  have hany : st.threads.any (fun e => e.tid = machine_agent_id) = true := by
    exact List.any_eq_true.mpr ⟨e, he, by simp [h1.trans hta]⟩
  constructor <;> simp [KeepAgentAwake, hany]

/-- Witness for C3: two starts for agent id 1 leave a single running
task for id 1 (the second start failed), so the ids are distinct. -/
theorem keep_awake_single_witness :
    ((((runOps initAg [AgOp.start 1 0, AgOp.start 1 0]).getD initAg).running.map
        WakeTask.agentId)).Nodup :=
  (keep_awake_single_per_id [AgOp.start 1 0, AgOp.start 1 0]
    ((runOps initAg [AgOp.start 1 0, AgOp.start 1 0]).getD initAg) rfl).1

/- ===================== Teardown (C7) ===================== -/

/-- Positional correspondence between the registry entries and the
running threads: each entry carries the matching thread id, terminator
event and thread handle.  This is the shape every state reachable purely
through successful starts and stops has. -/
def alignedB : List ThreadEntry → List WakeTask → Bool
  | [], [] => true
  | e :: es, t :: ts =>
    (e.tid = t.agentId && e.terminator = some t.notifier &&
      e.thread = some t.handle) && alignedB es ts
  | _, _ => false

/-- Well-formedness of an Agents state for teardown: registry aligned
with the running threads, distinct thread handles, distinct notifier
events, and no notifier already set. -/
def StrongWF (st : AgState) : Prop :=
  alignedB st.threads st.running = true ∧
  (st.running.map WakeTask.handle).Nodup ∧
  (st.running.map WakeTask.notifier).Nodup ∧
  (∀ t ∈ st.running, t.notifier ∉ st.setEvents)

/-- insertEvent only grows the set of set events. -/
theorem mem_insertEvent (se : List Nat) (ev x : Nat) :
    x ∈ insertEvent se ev ↔ x ∈ se ∨ x = ev := by
  unfold insertEvent
  by_cases hin : ev ∈ se
  · simp only [hin, if_true]
    constructor
    · exact fun h => Or.inl h
    · rintro (h | rfl)
      · exact h
      · exact hin
  · simp [hin, or_comm]

/-- The broadcast loop of teardown succeeds on an aligned registry and
sets exactly the terminator events, in registry order; the resulting
set-event collection contains everything it contained before plus every
event just set. -/
theorem delPhase1_aligned :
    ∀ (es : List ThreadEntry) (ts : List WakeTask) (se : List Nat),
      alignedB es ts = true →
      ∃ se2 evs, delPhase1 se es = some (se2, evs) ∧
        (∀ t ∈ ts, t.notifier ∈ evs) ∧
        (∀ x ∈ se, x ∈ se2) ∧ (∀ x ∈ evs, x ∈ se2) := by
  intro es
  induction es with
  | nil =>
    intro ts se hal
    cases ts with
    | nil => exact ⟨se, [], rfl, by simp, fun x hx => hx, by simp⟩
    | cons t ts => simp [alignedB] at hal
  | cons e es ih =>
    intro ts se hal
    cases ts with
    | nil => simp [alignedB] at hal
    | cons t ts =>
      simp only [alignedB, Bool.and_eq_true, decide_eq_true_eq] at hal
      obtain ⟨⟨⟨h1, h2⟩, h3⟩, hrest⟩ := hal
      obtain ⟨se2, evs, hrec, hmem, hup, hup2⟩ :=
        ih ts (insertEvent se t.notifier) hrest
      refine ⟨se2, t.notifier :: evs, ?_, ?_, ?_, ?_⟩
      · simp only [delPhase1, h2, hrec]
      · intro u hu
        rcases List.mem_cons.mp hu with rfl | hu2
        · simp
        · simp [hmem u hu2]
      · intro x hx
        exact hup x ((mem_insertEvent se t.notifier x).mpr (Or.inl hx))
      · intro x hx
        rcases List.mem_cons.mp hx with rfl | hx2
        · exact hup t.notifier ((mem_insertEvent se t.notifier t.notifier).mpr (Or.inr rfl))
        · exact hup2 x hx2

/-- The join loop of teardown terminates on an aligned registry whose
notifiers are all set and distinct, joining every thread: the running
set empties while the registry list and handle counter are untouched. -/
theorem delPhase2_aligned :
    ∀ (es : List ThreadEntry) (ts : List WakeTask) (thr : List ThreadEntry)
      (se : List Nat) (n : Nat),
      alignedB es ts = true →
      (ts.map WakeTask.handle).Nodup →
      (ts.map WakeTask.notifier).Nodup →
      (∀ t ∈ ts, t.notifier ∈ se) →
      ∃ se2, delPhase2 ⟨thr, ts, se, n⟩ es = some ⟨thr, [], se2, n⟩ := by
  intro es
  induction es with
  | nil =>
    intro ts thr se n hal _ _ _
    cases ts with
    | nil => exact ⟨se, rfl⟩
    | cons t ts => simp [alignedB] at hal
  | cons e es ih =>
    intro ts thr se n hal hh hn hin
    cases ts with
    | nil => simp [alignedB] at hal
    | cons t ts =>
      simp only [alignedB, Bool.and_eq_true, decide_eq_true_eq] at hal
      obtain ⟨⟨⟨h1, h2⟩, h3⟩, hrest⟩ := hal
      have hhands : ∀ u ∈ ts, u.handle ≠ t.handle := by
        intro u hu heq
        simp only [List.map_cons, List.nodup_cons] at hh
        exact hh.1 (heq ▸ List.mem_map_of_mem WakeTask.handle hu)
      have hnots : ∀ u ∈ ts, u.notifier ≠ t.notifier := by
        intro u hu heq
        simp only [List.map_cons, List.nodup_cons] at hn
        exact hn.1 (heq ▸ List.mem_map_of_mem WakeTask.notifier hu)
      have hfilter : (t :: ts).filter (fun u => u.handle ≠ t.handle) = ts := by
        rw [List.filter_cons]
        simp only [decide_eq_true_eq]
        rw [if_neg (by simp)]
        exact List.filter_eq_self.mpr (fun u hu => by simp [hhands u hu])
      have hjoin : joinThread ⟨thr, t :: ts, se, n⟩ t.handle =
          some ⟨thr, ts, se.filter (fun x => x ≠ t.notifier), n⟩ := by
        have hfd : (t :: ts).find? (fun u => u.handle = t.handle) = some t :=
          List.find?_cons_of_pos _ (by simp)
        simp only [joinThread, hfd]
        rw [if_pos (hin t (by simp))]
        rw [hfilter]
      obtain ⟨se2, hrec⟩ := ih ts thr (se.filter (fun x => x ≠ t.notifier)) n hrest
        (by simpa using (List.map_cons WakeTask.handle t ts ▸ hh).of_cons)
        (by simpa using (List.map_cons WakeTask.notifier t ts ▸ hn).of_cons)
        (fun u hu => List.mem_filter.mpr
          ⟨hin u (by simp [hu]), by simp [hnots u hu]⟩)
      refine ⟨se2, ?_⟩
      simp only [delPhase2, h3, hjoin, hrec]

/-- C7: on teardown of the Agents object, in a state where the registry
is aligned with the running keep-awake threads, the destructor first
sets the terminator event of every outstanding thread (the broadcast
loop emits the list evs covering every running notifier before any join
is attempted, delPhase1 running entirely before delPhase2), and only
then joins each thread, returning only once every thread has been
joined: the final running set is empty. -/
theorem del_teardown (st : AgState) (h : StrongWF st) :
    ∃ st2 evs, delAgents st = some (st2, evs) ∧
      (∀ t ∈ st.running, t.notifier ∈ evs) ∧ st2.running = [] := by
  obtain ⟨hal, hh, hn, hse⟩ := h
  obtain ⟨thr, ts, se, n⟩ := st
  obtain ⟨se2, evs, hp1, hmem, hup, hup2⟩ := delPhase1_aligned thr ts se hal
  obtain ⟨se3, hp2⟩ := delPhase2_aligned thr ts thr se2 n hal hh hn
    (fun t ht => hup2 t.notifier (hmem t ht))
  refine ⟨⟨thr, [], se3, n⟩, evs, ?_, hmem, rfl⟩
  simp only [delAgents, hp1]
  exact hp2 ▸ rfl

/-- Witness for C7: tearing down an Agents object with one running
keep-awake thread succeeds. -/
theorem del_teardown_witness :
    (delAgents (KeepAgentAwake initAg 7 70).1).isSome = true := by
  obtain ⟨st2, evs, he, -, -⟩ := del_teardown (KeepAgentAwake initAg 7 70).1
    (by refine ⟨rfl, ?_, ?_, ?_⟩ <;> decide)
  rw [he]
  rfl
